import Mathlib

/-!
Verification of the facefusion API orchestration layer
(`facefusion/api/headless_routes.py` and `facefusion/api/routes.py`).

The Python modules are shallowly embedded: the process-wide
`state_manager` becomes an association list from keys to values, the
configuration functions become pure functions over it, the HTTP
handlers become pure functions of the request plus an explicit
"world" record carrying the results of the external effects they
perform (remote fetches, engine exit code, filesystem answers), and
the asyncio concurrency of the handlers becomes an interleaving
semantics over await-separated atomic segments.
-/

deriving instance DecidableEq for Except

namespace FaceFusion

/-- Values stored in the process-wide `state_manager`.  Python floats that
appear in the sources (`0.5`, `0.6`) carry no arithmetic in this layer, so
they are embedded exactly as numerator/denominator pairs (`rat 1 2`,
`rat 3 5`). -/
inductive Value where
  | str (s : String)
  | int (i : Int)
  | rat (num : Int) (den : Nat)
  | bool (b : Bool)
  | strList (l : List String)
  | intList (l : List Int)
deriving Repr, DecidableEq

/-! ### The `state_manager` as an association map

`state_manager.set_item` / `get_item` store flat key/value pairs in one
process-wide location.  The map is generic in the value type because the
concurrency model additionally tags each value with the job that wrote it. -/

/-- `state_manager.set_item`: overwrite the binding of `k`. -/
def set_entry {α : Type} (s : List (String × α)) (k : String) (v : α) : List (String × α) :=
  (k, v) :: s.filter (fun p => p.1 != k)

/-- `state_manager.get_item`: look up the binding of `k`. -/
def get_entry {α : Type} (s : List (String × α)) (k : String) : Option α :=
  (s.find? (fun p => p.1 == k)).map Prod.snd

/-- Apply a list of writes in order (a straight-line block of
`state_manager.set_item` calls). -/
def apply_entries {α : Type} : List (String × α) → List (String × α) → List (String × α)
  | [], s => s
  | kv :: ws, s => apply_entries ws (set_entry s kv.1 kv.2)

/-- The last value a write list assigns to `k`, if any. -/
def lastWrite {α : Type} (k : String) : List (String × α) → Option α
  | [] => none
  | kv :: ws =>
    match lastWrite k ws with
    | some v => some v
    | none => if kv.1 = k then some kv.2 else none

/-! ### Configuration model (`headless_routes.py`)

`Args` mirrors the keys the handlers and `validate_args` read from the
`Args` dict built in `headless_process_url` / `headless_process_upload`. -/

structure Args where
  processors : Option (List String) := none
  source_path : Option String := none
  target_path : String := ""
  output_path : String := ""
  trim_frame_start : Option Int := none
  trim_frame_end : Option Int := none
  face_enhancer_model : Option String := none
  face_enhancer_blend : Option Int := none
  output_video_quality : Option Int := none
  output_video_fps : Option Int := none
  skip_audio : Option Bool := none
deriving Repr, DecidableEq

/-- A conditional single write: `if args.get(key) is not None: set_item(key, args[key])`. -/
def optWrite {α : Type} (o : Option α) (k : String) (f : α → Value) : List (String × Value) :=
  match o with
  | some x => [(k, f x)]
  | none => []

/-- The fixed write sequence of `init_api_default_settings` (lines 122-160 of
`headless_routes.py`), in source order. -/
def default_writes : List (String × Value) :=
  [("execution_providers", .strList ["cpu"]),
   ("processors", .strList ["face_swapper"]),
   ("face_detector_model", .str "retinaface"),
   ("face_detector_size", .str "640x640"),
   ("face_detector_score", .rat 1 2),
   ("face_detector_angles", .intList [0]),
   ("face_landmarker_model", .str "2dfan4"),
   ("face_landmarker_score", .rat 1 2),
   ("face_selector_mode", .str "reference"),
   ("face_selector_order", .str "large-small"),
   ("reference_face_position", .int 0),
   ("reference_face_distance", .rat 3 5),
   ("face_enhancer_model", .str "gfpgan_1.4"),
   ("face_enhancer_blend", .int 80),
   ("face_editor_model", .str "live_portrait"),
   ("frame_colorizer_model", .str "ddcolor"),
   ("frame_colorizer_size", .str "256x256"),
   ("frame_colorizer_blend", .int 100),
   ("output_image_quality", .int 90),
   ("output_image_resolution", .str "source"),
   ("output_video_encoder", .str "libx264"),
   ("output_video_quality", .int 80)]

/-- The write sequence of `setup_process_state` (lines 101-120): the defaults
first, then the request-derived overrides, in source order.  Note that the
trim bounds are never written. -/
def setup_writes (args : Args) : List (String × Value) :=
  default_writes
  ++ optWrite args.processors "processors" .strList
  ++ [("source_paths", .strList (match args.source_path with
        | some p => if p = "" then [] else [p]
        | none => [])),
      ("target_path", .str args.target_path),
      ("output_path", .str args.output_path)]
  ++ optWrite args.face_enhancer_model "face_enhancer_model" .str
  ++ optWrite args.face_enhancer_blend "face_enhancer_blend" .int
  ++ optWrite args.output_video_quality "output_video_quality" .int
  ++ optWrite args.output_video_fps "output_video_fps" (fun f => .rat f 1)
  ++ optWrite args.skip_audio "skip_audio" .bool

/-- Process-wide `state_manager` contents. -/
abbrev StateMap := List (String × Value)

/-- `init_api_default_settings` applied to the process-wide state. -/
def init_api_default_settings (s : StateMap) : StateMap :=
  apply_entries default_writes s

/-- `setup_process_state`: defaults first, then the request's overrides. -/
def setup_process_state (args : Args) (s : StateMap) : StateMap :=
  apply_entries (setup_writes args) s

/-- HTTPException as raised by the handlers. -/
structure HTTPExc where
  status_code : Nat
  detail : String
deriving Repr, DecidableEq

/-- `validate_args` (lines 162-170): range checks over the bounded tunables.
It is defined in the source but invoked by no handler. -/
def validate_args (args : Args) : Except HTTPExc Unit :=
  match args.output_video_quality with
  | some q =>
    if ¬ (0 ≤ q ∧ q ≤ 100) then
      .error ⟨400, "output_video_quality must be between 0 and 100"⟩
    else
      match args.face_enhancer_blend with
      | some b =>
        if ¬ (0 ≤ b ∧ b ≤ 100) then
          .error ⟨400, "face_enhancer_blend must be between 0 and 100"⟩
        else .ok ()
      | none => .ok ()
  | none =>
    match args.face_enhancer_blend with
    | some b =>
      if ¬ (0 ≤ b ∧ b ≤ 100) then
        .error ⟨400, "face_enhancer_blend must be between 0 and 100"⟩
      else .ok ()
    | none => .ok ()

/-! ### Paths

Path strings are manipulated through their character lists so that every
operation evaluates inside the kernel. -/

/-- `s.startswith(pre)`. -/
def strStartsWith (s pre : String) : Bool :=
  List.isPrefixOf pre.data s.data

/-- `p.split(sep)` for a single-character separator, with Python's
semantics (`"".split` gives one empty field, empty fields kept). -/
def splitSlash : List Char → List (List Char)
  | [] => [[]]
  | c :: rest =>
    let r := splitSlash rest
    if c = '/' then [] :: r
    else
      match r with
      | g :: gs => (c :: g) :: gs
      | [] => [[c]]

/-- `pathlib.Path` joining (`TEMP_DIR / name`): an absolute right operand
replaces the base, otherwise the name is appended verbatim — no
sanitization of `..` segments. -/
def pathJoin (base name : String) : String :=
  if name = "" then base
  else if strStartsWith name "/" then name
  else base ++ "/" ++ name

/-- Resolve `.` and `..` segments of a relative path (what the OS does when
the path is opened); used to decide whether a staged path stays inside the
working directory. -/
def normSegsAux (acc : List (List Char)) : List (List Char) → List (List Char)
  | [] => acc.reverse
  | s :: rest =>
    if s = ['.'] ∨ s = [] then normSegsAux acc rest
    else if s = ['.', '.'] then
      match acc with
      | [] => normSegsAux [['.', '.']] rest
      | a :: as =>
        if a = ['.', '.'] then normSegsAux (['.', '.'] :: a :: as) rest
        else normSegsAux as rest
    else normSegsAux (s :: acc) rest

def normalizePath (p : String) : String :=
  (List.intercalate ['/'] (normSegsAux [] (splitSlash p.data))).asString

/-- Whether the resolved path lies inside directory `base`. -/
def isUnder (base p : String) : Bool :=
  let n := normalizePath p
  n = base || strStartsWith n (base ++ "/")

/-- `os.path.splitext`: split a bare filename at the last dot, unless all
characters before that dot are dots themselves. -/
def splitext (s : String) : String × String :=
  let cs := s.data
  match ((List.range cs.length).filter (fun i => cs.getD i ' ' == '.')).getLast? with
  | none => (s, "")
  | some i =>
    if (cs.take i).all (fun c => c == '.') then (s, "")
    else ((cs.take i).asString, (cs.drop i).asString)

/-- `os.path.basename` / `Path.name` for the slash-joined paths built here. -/
def path_basename (p : String) : String :=
  ((splitSlash p.data).getLastD []).asString

/-- `get_output_path` (lines 70-76): a unique output name under `OUTPUT_DIR`
derived from the filename plus the event-loop timestamp. -/
def get_output_path (filename : String) (timestamp : Nat) : String :=
  let ne := splitext filename
  pathJoin "output" (ne.1 ++ "_" ++ toString timestamp ++ ne.2)

/-- The staged path of an uploaded file: `TEMP_DIR / upload.filename` with
the caller-supplied filename used verbatim (`headless_routes.py` lines
240/246, `routes.py` lines 30-32). -/
def upload_staged_path (filename : String) : String :=
  pathJoin "temp" filename

/-! ### URLs and requests -/

structure Url where
  scheme : String
  host : String
  path : String
deriving Repr, DecidableEq

def urlStr (u : Url) : String :=
  u.scheme ++ "://" ++ u.host ++ u.path

/-- `url.path.split(sep)[-1]` in `download_file` (line 58). -/
def url_filename (path : String) : String :=
  ((splitSlash path.data).getLastD []).asString

def split_host_path (rest : List Char) : List Char × List Char :=
  (rest.takeWhile (fun c => c != '/'), rest.dropWhile (fun c => c != '/'))

/-- Parse an `HttpUrl` the way the pydantic field type does at request
construction: an http or https scheme followed by a non-empty host. -/
def parse_url (s : String) : Option Url :=
  if strStartsWith s "http://" then
    let r := s.data.drop 7
    if (split_host_path r).1 = [] then none
    else some ⟨"http", (split_host_path r).1.asString, (split_host_path r).2.asString⟩
  else if strStartsWith s "https://" then
    let r := s.data.drop 8
    if (split_host_path r).1 = [] then none
    else some ⟨"https", (split_host_path r).1.asString, (split_host_path r).2.asString⟩
  else none

/-- The members of the `ProcessorType` enum (lines 34-41). -/
def processor_types : List String :=
  ["face_swapper", "face_enhancer", "frame_enhancer", "face_debugger",
   "face_editor", "age_modifier", "lip_syncer"]

def isProcessorType (s : String) : Bool :=
  processor_types.contains s

/-- The validated form of `HeadlessUrlRequest` (lines 43-48). -/
structure HeadlessUrlRequest where
  processors : List String
  source_url : Option Url
  target_url : Url
  trim_frame_start : Option Int
  trim_frame_end : Option Int
deriving Repr, DecidableEq

/-- The raw body fields of a `POST /headless/url` request before pydantic
validation. -/
structure RawUrlRequest where
  processors : List String
  source_url : Option String
  target_url : String
  trim_frame_start : Option Int
  trim_frame_end : Option Int
deriving Repr, DecidableEq

/-- Pydantic construction of `HeadlessUrlRequest`: each processor must be a
`ProcessorType` member and each URL must parse as an `HttpUrl`.  There is no
constraint on the processor list's length. -/
def HeadlessUrlRequest_validate (r : RawUrlRequest) : Except String HeadlessUrlRequest :=
  if r.processors.all isProcessorType then
    match parse_url r.target_url with
    | none => .error "target_url"
    | some tu =>
      match r.source_url with
      | none => .ok ⟨r.processors, none, tu, r.trim_frame_start, r.trim_frame_end⟩
      | some su =>
        match parse_url su with
        | none => .error "source_url"
        | some suu => .ok ⟨r.processors, some suu, tu, r.trim_frame_start, r.trim_frame_end⟩
  else .error "processors"

/-! ### Handler embeddings for `headless_routes.py`

The handlers are pure functions of the request plus a world record
carrying the outcomes of their external effects.  Each also emits a
trace of the stages it actually executed. -/

/-- The stages a headless handler can execute, in the order it executes
them.  `validateStep` would mark an invocation of `validate_args`. -/
inductive Step where
  | fetch (url : String)
  | save (filename : String)
  | validateStep
  | setupState
  | runEngine
deriving Repr, DecidableEq

/-- The success body returned by the headless handlers. -/
structure SuccessResp where
  message : String
  output_path : String
  output_filename : String
deriving Repr, DecidableEq

/-- Outcomes of the external effects of `headless_process_url`.
`output_on_disk` records whether the declared output path exists after the
run; the handler never consults it. -/
structure UrlWorld where
  target_status : Nat
  source_status : Nat
  engineExit : Int
  time : Nat
  output_on_disk : Bool
deriving Repr, DecidableEq

/-- `download_file` (lines 50-68): any non-200 status raises an
HTTPException with status 400; otherwise the body is streamed to
`TEMP_DIR / url.path.split(sep)[-1]`. -/
def download_file (u : Url) (status : Nat) : Except HTTPExc String :=
  if status ≠ 200 then .error ⟨400, "下载文件失败: " ++ urlStr u⟩
  else .ok (pathJoin "temp" (url_filename u.path))

/-- What the body of a headless handler produced before its `except` /
`finally` blocks act: the result, the executed stages, the two staged-path
variables, and the `state_manager` contents afterwards. -/
structure CoreOut where
  result : Except HTTPExc SuccessResp
  steps : List Step
  target_path : Option String
  source_path : Option String
  stateAfter : StateMap
deriving Repr, DecidableEq

/-- The `Args` dict as a headless handler builds it (lines 190-203 /
254-267): processors, optional source path, target and output paths, and
optional trims — nothing else; in particular none of the optional tunables
(`face_enhancer_model`, `face_enhancer_blend`, `output_video_quality`,
`output_video_fps`, `skip_audio`) can ever be populated by a request. -/
def handlerArgs (processors : List String) (source_path : Option String)
    (target_path output_path : String) (tfs tfe : Option Int) : Args :=
  { processors := some processors, source_path := source_path,
    target_path := target_path, output_path := output_path,
    trim_frame_start := tfs, trim_frame_end := tfe }

/-- The shared tail of both headless handlers (lines 186-215 / 250-279):
build the output path and the `Args` dict, call `setup_process_state`, call
`process_headless`, and trust its exit code alone. -/
def headless_run_stage (processors : List String) (tfs tfe : Option Int)
    (target_path : String) (source_path : Option String) (output_name : String)
    (ecode : Int) (time : Nat) (steps : List Step) (g : StateMap) : CoreOut :=
  let output_path := get_output_path output_name time
  let args : Args := handlerArgs processors source_path target_path output_path tfs tfe
  let g2 := setup_process_state args g
  if ecode ≠ 0 then
    ⟨.error ⟨500, "处理失败,错误码:" ++ toString ecode⟩,
     steps ++ [.setupState, .runEngine], some target_path, source_path, g2⟩
  else
    ⟨.ok ⟨"处理成功", output_path, path_basename output_path⟩,
     steps ++ [.setupState, .runEngine], some target_path, source_path, g2⟩

/-- The `try` body of `headless_process_url` (lines 174-215). -/
def headless_core_url (req : HeadlessUrlRequest) (w : UrlWorld) (g : StateMap) : CoreOut :=
  match download_file req.target_url w.target_status with
  | .error e => ⟨.error e, [.fetch (urlStr req.target_url)], none, none, g⟩
  | .ok target_path =>
    match req.source_url with
    | some su =>
      match download_file su w.source_status with
      | .error e =>
        ⟨.error e, [.fetch (urlStr req.target_url), .fetch (urlStr su)], some target_path, none, g⟩
      | .ok source_path =>
        headless_run_stage req.processors req.trim_frame_start req.trim_frame_end
          target_path (some source_path) (path_basename target_path) w.engineExit w.time
          [.fetch (urlStr req.target_url), .fetch (urlStr su)] g
    | none =>
      headless_run_stage req.processors req.trim_frame_start req.trim_frame_end
        target_path none (path_basename target_path) w.engineExit w.time
        [.fetch (urlStr req.target_url)] g

/-- Results of the filesystem and process-manager effects of cleanup. -/
structure FsOps where
  end_result : Except String Unit
  clear_temp : String → Except String Unit
  path_on_disk : String → Bool
  unlink : String → Except String Unit
  rmtree : String → Except String Unit

/-- `for path in paths: if path and path.exists(): path.unlink()`, stopping
at the first exception; also yields the paths actually deleted. -/
def unlink_loop (fs : FsOps) : List (Option String) → List String → Except String Unit × List String
  | [], acc => (.ok (), acc)
  | none :: rest, acc => unlink_loop fs rest acc
  | some p :: rest, acc =>
    if fs.path_on_disk p then
      match fs.unlink p with
      | .ok _ => unlink_loop fs rest (acc ++ [p])
      | .error e => (.error e, acc)
    else unlink_loop fs rest acc

def errOpt : Except String Unit → Option String
  | .ok _ => none
  | .error e => some e

/-- What `cleanup_files` did: the error it logged (if any), the staged paths
it unlinked, and the target whose engine temp directory it cleared. -/
structure CleanupOut where
  logged : Option String
  deleted : List String
  cleared : Option String
deriving Repr, DecidableEq

/-- `cleanup_files` (lines 82-99): end the process manager, clear the temp
directory of the `target_path` recorded in `state_manager`, unlink the
given paths; the whole body sits in a `try` whose `except` only logs. -/
def cleanup_files (paths : List (Option String)) (st : StateMap) (fs : FsOps) : CleanupOut :=
  match fs.end_result with
  | .error e => ⟨some e, [], none⟩
  | .ok _ =>
    match get_entry st "target_path" with
    | some (.str tp) =>
      if tp = "" then
        let r := unlink_loop fs paths []
        ⟨errOpt r.1, r.2, none⟩
      else
        match fs.clear_temp tp with
        | .error e => ⟨some e, [], none⟩
        | .ok _ =>
          let r := unlink_loop fs paths []
          ⟨errOpt r.1, r.2, some tp⟩
    | _ =>
      let r := unlink_loop fs paths []
      ⟨errOpt r.1, r.2, none⟩

/-- A finished headless request: response, executed stages, deleted paths. -/
structure HandlerOut where
  result : Except HTTPExc SuccessResp
  steps : List Step
  deleted : List String
deriving Repr, DecidableEq

/-- `headless_process_url` (lines 172-226): the `except Exception` clause
re-raises every failure as an HTTPException with status 500 whose detail
embeds the original message; the `finally` clause runs `cleanup_files`
inside its own `try`/`except`, so cleanup never alters the response. -/
def headless_process_url (req : HeadlessUrlRequest) (w : UrlWorld) (g : StateMap) (fs : FsOps) :
    HandlerOut :=
  let c := headless_core_url req w g
  let cl := cleanup_files [c.source_path, c.target_path] c.stateAfter fs
  match c.result with
  | .ok r => ⟨.ok r, c.steps, cl.deleted⟩
  | .error e => ⟨.error ⟨500, "处理失败: " ++ e.detail⟩, c.steps, cl.deleted⟩

/-- The form fields of a `POST /headless/upload` request. -/
structure UploadReq where
  processors : List String
  target_filename : String
  source_filename : Option String
  trim_frame_start : Option Int
  trim_frame_end : Option Int
deriving Repr, DecidableEq

structure UploadWorld where
  engineExit : Int
  time : Nat
deriving Repr, DecidableEq

/-- The `try` body of `headless_process_upload` (lines 236-279): uploads are
staged at `TEMP_DIR / filename` verbatim, and the output name is derived
from `target.filename`. -/
def headless_core_upload (r : UploadReq) (w : UploadWorld) (g : StateMap) : CoreOut :=
  let target_path := pathJoin "temp" r.target_filename
  match r.source_filename with
  | some sf =>
    headless_run_stage r.processors r.trim_frame_start r.trim_frame_end
      target_path (some (pathJoin "temp" sf)) r.target_filename w.engineExit w.time
      [.save r.target_filename, .save sf] g
  | none =>
    headless_run_stage r.processors r.trim_frame_start r.trim_frame_end
      target_path none r.target_filename w.engineExit w.time
      [.save r.target_filename] g

/-- `headless_process_upload` (lines 228-286): like the URL variant, every
failure is re-raised as status 500 (detail `str(e)`), and the `finally`
clause calls `cleanup_files` (which itself never raises). -/
def headless_process_upload (r : UploadReq) (w : UploadWorld) (g : StateMap) (fs : FsOps) :
    HandlerOut :=
  let c := headless_core_upload r w g
  let cl := cleanup_files [c.source_path, c.target_path] c.stateAfter fs
  match c.result with
  | .ok res => ⟨.ok res, c.steps, cl.deleted⟩
  | .error e => ⟨.error ⟨500, e.detail⟩, c.steps, cl.deleted⟩

/-! ### Handler embeddings for `routes.py` -/

structure FileResp where
  path : String
  media_type : String
  filename : String
deriving Repr, DecidableEq

/-- The final fate of a `routes.py` request: an HTTPException surfaced by
the handler, or an exception escaping its unguarded `finally` block. -/
inductive FinalErr where
  | http (e : HTTPExc)
  | cleanupRaise (msg : String)
deriving Repr, DecidableEq

/-- Outcomes of the external effects of `swap_face_image`. -/
structure ImageWorld where
  source_readable : Bool
  source_faces : Bool
  target_readable : Bool
  target_faces : Bool
  process_error : Option String
  output_exists : Bool
deriving Repr, DecidableEq

/-- The `try` body of `swap_face_image` (lines 28-77): face-presence
validation, then `process_image` inside an inner `try` whose `except`
rewraps any failure — including the missing-output HTTPException raised
when the declared output path does not exist — as status 500. -/
def swap_image_core (srcName tgtName : String) (w : ImageWorld) : Except HTTPExc FileResp :=
  if ¬ w.source_readable then .error ⟨400, "无法读取源图片"⟩
  else if ¬ w.source_faces then .error ⟨400, "在源图片中未检测到人脸"⟩
  else if ¬ w.target_readable then .error ⟨400, "无法读取目标图片"⟩
  else if ¬ w.target_faces then .error ⟨400, "在目标图片中未检测到人脸"⟩
  else
    match w.process_error with
    | some msg => .error ⟨500, "换脸处理失败: " ++ msg⟩
    | none =>
      if ¬ w.output_exists then .error ⟨500, "换脸处理失败: 处理后的图片未生成"⟩
      else .ok ⟨pathJoin "temp" ("output_" ++ tgtName), "image/jpeg", "output_" ++ tgtName⟩

/-- `swap_face_image` (lines 23-88): HTTPExceptions are re-raised with their
kind intact, but the `finally` block deletes source, target AND output
without any guard, so a deletion failure escapes and replaces the
response. -/
def swap_face_image (srcName tgtName : String) (w : ImageWorld) (fs : FsOps) :
    Except FinalErr FileResp × List String :=
  let source_path := upload_staged_path srcName
  let target_path := upload_staged_path tgtName
  let output_path := pathJoin "temp" ("output_" ++ tgtName)
  let core := swap_image_core srcName tgtName w
  let cl := unlink_loop fs [some source_path, some target_path, some output_path] []
  match cl.1 with
  | .error e => (.error (.cleanupRaise e), cl.2)
  | .ok _ =>
    match core with
    | .ok r => (.ok r, cl.2)
    | .error e => (.error (.http e), cl.2)

/-- Every name bound at module level of `routes.py` (its imports, lines
1-16, plus `app` and `TEMP_DIR`).  `subprocess` is not among them. -/
def routes_module_names : List String :=
  ["FastAPI", "UploadFile", "File", "HTTPException", "Form", "FileResponse",
   "shutil", "os", "List", "Path", "traceback",
   "update_face_swapper_pixel_boost", "update_face_selector_mode",
   "process_image", "process_video", "conditional_append_reference_faces",
   "analyse_frame", "read_static_image", "read_static_images", "detect_faces",
   "get_reference_faces", "get_one_face", "get_many_faces", "app", "TEMP_DIR"]

/-- Python exceptions that can escape the video handler's body. -/
inductive PyErr where
  | nameError (n : String)
  | osError (msg : String)
deriving Repr, DecidableEq

def pyErrStr : PyErr → String
  | .nameError n => "name " ++ n ++ " is not defined"
  | .osError m => m

structure VideoWorld where
  save_source : Except String Unit
  save_target : Except String Unit
  process_video_error : Option String
  compose_ok : Bool
deriving Repr, DecidableEq

/-- Milestones of `swap_face_video`; the output video only comes into
existence at `composedOutput` (the second ffmpeg call, lines 126-130). -/
inductive VideoEvent where
  | savedSource
  | savedTarget
  | extractedFrames
  | composedOutput
deriving Repr, DecidableEq

/-- The `try` body of `swap_face_video` (lines 95-133): after staging the
uploads, line 114 evaluates the name `subprocess`; name resolution consults
the module-level bindings, and an unbound name raises `NameError` before
any frame is extracted. -/
def swap_video_core (srcName tgtName : String) (w : VideoWorld) :
    Except PyErr FileResp × List VideoEvent :=
  match w.save_source with
  | .error e => (.error (.osError e), [])
  | .ok _ =>
    match w.save_target with
    | .error e => (.error (.osError e), [.savedSource])
    | .ok _ =>
      if routes_module_names.contains "subprocess" then
        match w.process_video_error with
        | some m => (.error (.osError m), [.savedSource, .savedTarget, .extractedFrames])
        | none =>
          if w.compose_ok then
            (.ok ⟨pathJoin "temp" ("output_" ++ tgtName), "video/mp4", "output_" ++ tgtName⟩,
             [.savedSource, .savedTarget, .extractedFrames, .composedOutput])
          else
            (.error (.osError "ffmpeg"), [.savedSource, .savedTarget, .extractedFrames])
      else
        (.error (.nameError "subprocess"), [.savedSource, .savedTarget])

/-- `swap_face_video` (lines 90-144): any exception from the body becomes an
HTTPException with status 500; the unguarded `finally` block then unlinks
the three files and removes the frames directory. -/
def swap_face_video (srcName tgtName : String) (w : VideoWorld) (fs : FsOps) :
    Except FinalErr FileResp × List VideoEvent × List String :=
  let cv := swap_video_core srcName tgtName w
  let wrapped : Except HTTPExc FileResp :=
    match cv.1 with
    | .ok r => .ok r
    | .error e => .error ⟨500, pyErrStr e⟩
  let cl := unlink_loop fs
    [some (upload_staged_path srcName), some (upload_staged_path tgtName),
     some (pathJoin "temp" ("output_" ++ tgtName))] []
  match cl.1 with
  | .error e => (.error (.cleanupRaise e), cv.2, cl.2)
  | .ok _ =>
    match (if fs.path_on_disk "temp/frames" then fs.rmtree "temp/frames" else .ok ()) with
    | .error e => (.error (.cleanupRaise e), cv.2, cl.2)
    | .ok _ =>
      match wrapped with
      | .ok r => (.ok r, cv.2, cl.2)
      | .error e => (.error (.http e), cv.2, cl.2)

/-! ### Concurrency model

FastAPI runs the `async def` handlers on one event loop: control can
switch between two in-flight requests only at an `await`.  A handler is
therefore a list of atomic segments separated by its `await` points.  In
both headless handlers the `setup_process_state(args)` call and the
`process_headless(args)` call sit in the same segment — there is no
`await` between lines 205-206 (219-270 for the upload variant) — while
each `await download_file(...)` ends a segment and touches no
`state_manager` key.  Writes to the shared state are tagged with the job
that performed them, and the engine's observation is the shared state at
the moment `process_headless` starts. -/

abbrev JobId := Nat

/-- Shared `state_manager` contents with, for every key, the job that
wrote its current value. -/
abbrev TState := List (String × (Value × JobId))

def tagWrites (j : JobId) (ws : List (String × Value)) : List (String × (Value × JobId)) :=
  ws.map (fun kv => (kv.1, (kv.2, j)))

/-- The job that supplied the value currently stored under `k`. -/
def twriter (s : TState) (k : String) : Option JobId :=
  (get_entry s k).map Prod.snd

/-- One await-separated atomic segment of a handler: either a block that
performs no shared-state access (a download or an upload save), or the
block that runs `setup_process_state` followed by `process_headless`. -/
inductive Seg where
  | compute
  | configureAndRun (args : Args)
deriving Repr, DecidableEq

/-- Execute one segment for job `j`: the configure+run segment applies all
of `setup_process_state`'s writes and then observes the state at the
moment `run()` starts. -/
def execSeg (s : TState) (j : JobId) : Seg → TState × Option (JobId × TState)
  | .compute => (s, none)
  | .configureAndRun args =>
    let s2 := apply_entries (tagWrites j (setup_writes args)) s
    (s2, some (j, s2))

/-- Execute a schedule (an interleaving of jobs' segments), collecting
every engine observation together with the job it belongs to. -/
def execSched : TState → List (JobId × Seg) → TState × List (JobId × TState)
  | s, [] => (s, [])
  | s, (j, sg) :: rest =>
    let r := execSeg s j sg
    let f := execSched r.1 rest
    (f.1, (match r.2 with | some o => [o] | none => []) ++ f.2)

/-- `headless_process_url` as segments: two downloads (awaits), then the
atomic configure+run block. -/
def url_job (args : Args) : List Seg :=
  [.compute, .compute, .configureAndRun args]

/-- `headless_process_upload` as segments: its body contains no `await` at
all, so it is a single atomic block. -/
def upload_job (args : Args) : List Seg :=
  [.configureAndRun args]

def tagJob (j : JobId) (segs : List Seg) : List (JobId × Seg) :=
  segs.map (fun sg => (j, sg))

/-- `Merge xs ys zs`: `zs` is an interleaving of `xs` and `ys` that keeps
each job's own segments in order — exactly the schedules a single-threaded
event loop can produce for two concurrently submitted jobs. -/
inductive Merge : List (JobId × Seg) → List (JobId × Seg) → List (JobId × Seg) → Prop
  | nil : Merge [] [] []
  | left : ∀ {x xs ys zs}, Merge xs ys zs → Merge (x :: xs) ys (x :: zs)
  | right : ∀ {y xs ys zs}, Merge xs ys zs → Merge xs (y :: ys) (y :: zs)

/-! ### Concrete jobs used by witnesses and counterexamples -/

/-- A job that supplies no optional tunable. -/
def cArgsA : Args :=
  { processors := some ["face_swapper"],
    target_path := "temp/t.jpg", output_path := "output/t_1.jpg" }

/-- A second handler-built job, with a different target. -/
def cArgsC : Args :=
  handlerArgs ["face_enhancer"] none "temp/u.mp4" "output/u_2.mp4" none none

/-- A job that supplies `output_video_quality` explicitly. -/
def cArgsQ : Args :=
  { processors := some ["face_swapper"],
    target_path := "temp/t.jpg", output_path := "output/t_1.jpg",
    output_video_quality := some 55 }

/-- Job B's single segment scheduled before job A's: a legal interleaving
of two concurrently submitted upload jobs. -/
def cSchedBA : List (JobId × Seg) :=
  [(1, .configureAndRun cArgsC), (0, .configureAndRun cArgsA)]

/-- The keys every handler-built job's `setup_process_state` writes: the
default table plus the processor list and the three path keys. -/
def handler_keys : List String :=
  default_writes.map Prod.fst ++ ["processors", "source_paths", "target_path", "output_path"]

/-- A request for `POST /headless/url` with no source. -/
def cUrlReq : HeadlessUrlRequest :=
  ⟨["face_swapper"], none, ⟨"http", "example.com", "/imgs/cat.jpg"⟩, none, none⟩

/-- A world where both fetches succeed, the engine exits 0, and the
declared output path is absent from disk after the run. -/
def cWorldNoOutput : UrlWorld :=
  ⟨200, 200, 0, 123, false⟩

/-- A world whose target fetch answers HTTP 404. -/
def cWorld404 : UrlWorld :=
  ⟨404, 200, 0, 123, true⟩

/-- A filesystem where every operation succeeds and every path exists. -/
def cFsOps : FsOps :=
  { end_result := .ok (), clear_temp := fun _ => .ok (),
    path_on_disk := fun _ => true, unlink := fun _ => .ok (),
    rmtree := fun _ => .ok () }

/-- A filesystem where deleting the staged source file fails. -/
def cFsOpsDenied : FsOps :=
  { end_result := .ok (), clear_temp := fun _ => .ok (),
    path_on_disk := fun _ => true,
    unlink := fun p => if p = "temp/s.png" then .error "Permission denied" else .ok (),
    rmtree := fun _ => .ok () }

/-- An image-swap world where everything succeeds and the output exists. -/
def cImageWorldOk : ImageWorld :=
  ⟨true, true, true, true, none, true⟩

/-- An image-swap world where the engine reports no error but the declared
output path does not exist afterwards. -/
def cImageWorldNoOutput : ImageWorld :=
  ⟨true, true, true, true, none, false⟩

/-- A video-swap world where both uploads are saved successfully. -/
def cVideoWorld : VideoWorld :=
  ⟨.ok (), .ok (), none, true⟩

/-! ## Helper lemmas about the association map and write lists -/

theorem find_filter_ne {α : Type} (s : List (String × α)) (k k' : String) (h : k' ≠ k) :
    (s.filter (fun p => p.1 != k')).find? (fun p => p.1 == k) = s.find? (fun p => p.1 == k) := by
  induction s with
  | nil => rfl
  | cons a t ih =>
    by_cases ha : a.1 = k'
    · have h1 : (a.1 != k') = false := by simp [ha]
      have h2 : (a.1 == k) = false := by
        have : a.1 ≠ k := fun hc => h (by rw [← ha, hc])
        simp [this]
      simp [List.filter_cons, List.find?_cons, h1, h2, ih]
    · have h1 : (a.1 != k') = true := by simp [ha]
      by_cases hk : a.1 = k
      · have h2 : (a.1 == k) = true := by simp [hk]
        simp [List.filter_cons, List.find?_cons, h1, h2]
      · have h2 : (a.1 == k) = false := by simp [hk]
        simp [List.filter_cons, List.find?_cons, h1, h2, ih]

theorem get_set_entry {α : Type} (s : List (String × α)) (k k' : String) (v : α) :
    get_entry (set_entry s k' v) k = if k' = k then some v else get_entry s k := by
  by_cases h : k' = k
  · subst h
    simp [get_entry, set_entry, List.find?_cons]
  · simp only [get_entry, set_entry, List.find?_cons]
    have hb : ((k', v).1 == k) = false := by
      simp [h]
    simp only [hb, if_neg h]
    rw [find_filter_ne s k k' h]

theorem get_apply_entries {α : Type} (ws : List (String × α)) (s : List (String × α)) (k : String) :
    get_entry (apply_entries ws s) k =
      match lastWrite k ws with
      | some v => some v
      | none => get_entry s k := by
  induction ws generalizing s with
  | nil => rfl
  | cons kv ws ih =>
    show get_entry (apply_entries ws (set_entry s kv.1 kv.2)) k = _
    rw [ih]
    cases hlast : lastWrite k ws with
    | some v => simp [lastWrite, hlast]
    | none =>
      rw [get_set_entry]
      by_cases hk : kv.1 = k
      · simp [lastWrite, hlast, hk]
      · simp [lastWrite, hlast, hk]

theorem lastWrite_none_iff {α : Type} (k : String) (ws : List (String × α)) :
    lastWrite k ws = none ↔ k ∉ ws.map Prod.fst := by
  induction ws with
  | nil => simp [lastWrite]
  | cons kv ws ih =>
    cases hlast : lastWrite k ws with
    | some v =>
      simp only [lastWrite, hlast, List.map_cons, List.mem_cons]
      constructor
      · intro h; exact absurd h (by simp)
      · intro h
        exact absurd (ih.mpr (fun hc => h (Or.inr hc))) (by simp [hlast])
    | none =>
      simp only [lastWrite, hlast, List.map_cons, List.mem_cons]
      by_cases hk : kv.1 = k
      · simp [hk]
      · rw [if_neg hk]
        constructor
        · intro _
          rintro (hc | hc)
          · exact hk hc.symm
          · exact (ih.mp hlast) hc
        · intro _
          rfl

theorem lastWrite_append {α : Type} (k : String) (xs ys : List (String × α)) :
    lastWrite k (xs ++ ys) =
      match lastWrite k ys with
      | some v => some v
      | none => lastWrite k xs := by
  induction xs with
  | nil =>
    cases h : lastWrite k ys <;> simp [lastWrite, h]
  | cons kv xs ih =>
    show lastWrite k (kv :: (xs ++ ys)) = _
    simp only [lastWrite, ih]
    cases h : lastWrite k ys <;> cases h2 : lastWrite k xs <;> simp [h, h2]

theorem lastWrite_tagWrites (j : JobId) (k : String) (ws : List (String × Value)) :
    lastWrite k (tagWrites j ws) = (lastWrite k ws).map (fun v => (v, j)) := by
  induction ws with
  | nil => rfl
  | cons kv ws ih =>
    show lastWrite k ((kv.1, (kv.2, j)) :: tagWrites j ws) = _
    simp only [lastWrite, ih]
    cases h : lastWrite k ws with
    | some v => simp
    | none => by_cases hk : kv.1 = k <;> simp [hk]

theorem lastWrite_isSome_of_mem {α : Type} (k : String) (ws : List (String × α))
    (h : k ∈ ws.map Prod.fst) : ∃ v, lastWrite k ws = some v := by
  cases hl : lastWrite k ws with
  | some v => exact ⟨v, rfl⟩
  | none => exact absurd h ((lastWrite_none_iff k ws).mp hl)

/-- After the configure block of job `j` runs, every key it wrote is held
with writer tag `j`, whatever the shared state contained before. -/
theorem twriter_setup (j : JobId) (args : Args) (s : TState) (k : String)
    (hk : k ∈ (setup_writes args).map Prod.fst) :
    twriter (apply_entries (tagWrites j (setup_writes args)) s) k = some j := by
  obtain ⟨v, hv⟩ := lastWrite_isSome_of_mem k _ hk
  unfold twriter
  rw [get_apply_entries, lastWrite_tagWrites, hv]
  rfl

/-- Core scheduling lemma: in every interleaving of job 0's segments with
job 1's segments, each engine observation belonging to job 0 holds job 0's
own value for every key job 0's configure block writes. -/
theorem sched_obs_writer (argsA : Args) (k : String)
    (hk : k ∈ (setup_writes argsA).map Prod.fst) :
    ∀ xs ys zs, Merge xs ys zs →
      (∀ p ∈ xs, p.1 = 0 ∧ (p.2 = Seg.compute ∨ p.2 = Seg.configureAndRun argsA)) →
      (∀ p ∈ ys, p.1 = 1) →
      ∀ s st, (0, st) ∈ (execSched s zs).2 → twriter st k = some 0 := by
  intro xs ys zs hm
  induction hm with
  | nil =>
    intro _ _ s st hmem
    simp [execSched] at hmem
  | left hm ih =>
    rename_i x xs ys zs
    intro hxs hys s st hmem
    obtain ⟨j, sg⟩ := x
    obtain ⟨hj, hsg⟩ := hxs (j, sg) (by simp)
    simp only at hj
    subst hj
    rcases hsg with hsg | hsg <;> subst hsg
    · simp only [execSched, execSeg, List.nil_append] at hmem
      exact ih (fun p hp => hxs p (by simp [hp])) hys s st hmem
    · simp only [execSched, execSeg, List.singleton_append, List.mem_cons] at hmem
      rcases hmem with hmem | hmem
      · have hst : st = apply_entries (tagWrites 0 (setup_writes argsA)) s :=
          congrArg Prod.snd hmem
        rw [hst]
        exact twriter_setup 0 argsA s k hk
      · exact ih (fun p hp => hxs p (by simp [hp])) hys _ st hmem
  | right hm ih =>
    rename_i y xs ys zs
    intro hxs hys s st hmem
    obtain ⟨j, sg⟩ := y
    have hj := hys (j, sg) (by simp)
    simp only at hj
    subst hj
    cases sg with
    | compute =>
      simp only [execSched, execSeg, List.nil_append] at hmem
      exact ih hxs (fun p hp => hys p (by simp [hp])) s st hmem
    | configureAndRun argsB =>
      simp only [execSched, execSeg, List.singleton_append, List.mem_cons] at hmem
      rcases hmem with hmem | hmem
      · exact absurd (congrArg Prod.fst hmem) (by simp)
      · exact ih hxs (fun p hp => hys p (by simp [hp])) _ st hmem

/-! ## Claims -/

/-- A key the configure block does not write keeps its previous value and
writer through the block. -/
theorem twriter_apply_not_mem (j : JobId) (ws : List (String × Value)) (s : TState) (k : String)
    (h : k ∉ ws.map Prod.fst) :
    twriter (apply_entries (tagWrites j ws) s) k = twriter s k := by
  unfold twriter
  rw [get_apply_entries, lastWrite_tagWrites, (lastWrite_none_iff k ws).mpr h]
  rfl

/-- Every handler-built job's `setup_process_state` writes the same fixed
key set: the defaults plus `processors`, `source_paths`, `target_path` and
`output_path` — whatever the request's paths, processors and trims are. -/
theorem setup_writes_handler_keys (ps : List String) (sp : Option String) (tp op : String)
    (tfs tfe : Option Int) :
    (setup_writes (handlerArgs ps sp tp op tfs tfe)).map Prod.fst = handler_keys := by
  simp [setup_writes, handlerArgs, optWrite, handler_keys]

/-- Core scheduling lemma for C1: if every key job 1's configure block
writes is also written by job 0's configure block, then in every
interleaving, no engine observation belonging to job 0 holds any value
written by job 1 — job 0's own atomic configure block has rewritten them
all before its `run()` observation. -/
theorem sched_no_writer_one (argsA argsB : Args)
    (hkeys : ∀ k, k ∈ (setup_writes argsB).map Prod.fst →
      k ∈ (setup_writes argsA).map Prod.fst) :
    ∀ xs ys zs, Merge xs ys zs →
      (∀ p ∈ xs, p.1 = 0 ∧ (p.2 = Seg.compute ∨ p.2 = Seg.configureAndRun argsA)) →
      (∀ p ∈ ys, p.1 = 1 ∧ (p.2 = Seg.compute ∨ p.2 = Seg.configureAndRun argsB)) →
      ∀ s, (∀ k, twriter s k = some 1 → k ∈ (setup_writes argsB).map Prod.fst) →
      ∀ st, (0, st) ∈ (execSched s zs).2 → ∀ k, twriter st k ≠ some 1 := by
  intro xs ys zs hm
  induction hm with
  | nil =>
    intro _ _ s _ st hmem
    simp [execSched] at hmem
  | left hm ih =>
    rename_i x xs ys zs
    intro hxs hys s hinv st hmem
    obtain ⟨j, sg⟩ := x
    obtain ⟨hj, hsg⟩ := hxs (j, sg) (by simp)
    simp only at hj
    subst hj
    rcases hsg with hsg | hsg <;> subst hsg
    · simp only [execSched, execSeg, List.nil_append] at hmem
      exact ih (fun p hp => hxs p (by simp [hp])) hys s hinv st hmem
    · simp only [execSched, execSeg, List.singleton_append, List.mem_cons] at hmem
      have hinv' : ∀ k, twriter (apply_entries (tagWrites 0 (setup_writes argsA)) s) k = some 1 →
          k ∈ (setup_writes argsB).map Prod.fst := by
        intro k hk1
        by_cases hmemA : k ∈ (setup_writes argsA).map Prod.fst
        · rw [twriter_setup 0 argsA s k hmemA] at hk1
          simp at hk1
        · rw [twriter_apply_not_mem 0 _ s k hmemA] at hk1
          exact hinv k hk1
      rcases hmem with hmem | hmem
      · have hst : st = apply_entries (tagWrites 0 (setup_writes argsA)) s :=
          congrArg Prod.snd hmem
        subst hst
        intro k hk1
        have hA := hkeys k (hinv' k hk1)
        rw [twriter_setup 0 argsA s k hA] at hk1
        simp at hk1
      · exact ih (fun p hp => hxs p (by simp [hp])) hys _ hinv' st hmem
  | right hm ih =>
    rename_i y xs ys zs
    intro hxs hys s hinv st hmem
    obtain ⟨j, sg⟩ := y
    obtain ⟨hj, hsg⟩ := hys (j, sg) (by simp)
    simp only at hj
    subst hj
    rcases hsg with hsg | hsg <;> subst hsg
    · simp only [execSched, execSeg, List.nil_append] at hmem
      exact ih hxs (fun p hp => hys p (by simp [hp])) s hinv st hmem
    · simp only [execSched, execSeg, List.singleton_append, List.mem_cons] at hmem
      have hinv' : ∀ k, twriter (apply_entries (tagWrites 1 (setup_writes argsB)) s) k = some 1 →
          k ∈ (setup_writes argsB).map Prod.fst := by
        intro k hk1
        by_cases hmemB : k ∈ (setup_writes argsB).map Prod.fst
        · exact hmemB
        · rw [twriter_apply_not_mem 1 _ s k hmemB] at hk1
          exact hinv k hk1
      rcases hmem with hmem | hmem
      · exact absurd (congrArg Prod.fst hmem) (by simp)
      · exact ih hxs (fun p hp => hys p (by simp [hp])) _ hinv' st hmem

/-- Claim C1: for any two concurrently submitted headless jobs — each with
an `Args` dict as the handlers build it (processors, optional source,
target/output paths, optional trims; the optional tunables can never be
populated by a request) — in every event-loop interleaving of their
await-separated segments, the configuration observed by the engine at the
moment `run()` starts for job A contains no field value supplied by job B:
no `await` separates `setup_process_state` from `process_headless`, so
job A's atomic configure block has rewritten every key job B's configure
block writes before job A's observation. -/
theorem C1_no_cross_job_bleed
    (psA psB : List String) (spA spB : Option String)
    (tpA tpB opA opB : String) (tfsA tfsB tfeA tfeB : Option Int)
    (argsA argsB : Args) (jobsA jobsB : List Seg) (sched : List (JobId × Seg))
    (s0 st : TState) (k : String)
    (hA : argsA = handlerArgs psA spA tpA opA tfsA tfeA)
    (hB : argsB = handlerArgs psB spB tpB opB tfsB tfeB)
    (hjA : jobsA = url_job argsA ∨ jobsA = upload_job argsA)
    (hjB : jobsB = url_job argsB ∨ jobsB = upload_job argsB)
    (hm : Merge (tagJob 0 jobsA) (tagJob 1 jobsB) sched)
    (hs0 : ∀ k2, twriter s0 k2 ≠ some 1)
    (hobs : (0, st) ∈ (execSched s0 sched).2) :
    twriter st k ≠ some 1 := by
  have hkeys : ∀ k2, k2 ∈ (setup_writes argsB).map Prod.fst →
      k2 ∈ (setup_writes argsA).map Prod.fst := by
    intro k2 hk2
    rw [hB, setup_writes_handler_keys] at hk2
    rw [hA, setup_writes_handler_keys]
    exact hk2
  refine sched_no_writer_one argsA argsB hkeys _ _ _ hm ?_ ?_ s0 ?_ st hobs k
  · intro p hp
    rcases hjA with h | h <;> subst h <;>
      simp only [tagJob, url_job, upload_job, List.map_cons, List.map_nil,
        List.mem_cons, List.not_mem_nil, or_false] at hp
    · rcases hp with hp | hp | hp <;> subst hp <;> simp
    · subst hp
      simp
  · intro p hp
    rcases hjB with h | h <;> subst h <;>
      simp only [tagJob, url_job, upload_job, List.map_cons, List.map_nil,
        List.mem_cons, List.not_mem_nil, or_false] at hp
    · rcases hp with hp | hp | hp <;> subst hp <;> simp
    · subst hp
      simp
  · intro k2 hk2
    exact absurd hk2 (hs0 k2)

/-- Witness for C1: the schedule where job B's whole configure+run block
runs first and job A's runs second; at job A's observation even the
`output_video_fps` key holds no value written by job B. -/
theorem C1_witness :
    twriter (((execSched ([] : TState) cSchedBA).2.getD 1 (9, [])).2) "output_video_fps"
      ≠ some 1 :=
  C1_no_cross_job_bleed ["face_swapper"] ["face_enhancer"] none none
    "temp/t.jpg" "temp/u.mp4" "output/t_1.jpg" "output/u_2.mp4" none none none none
    cArgsA cArgsC (upload_job cArgsA) (upload_job cArgsC) cSchedBA [] _ "output_video_fps"
    rfl rfl (Or.inr rfl) (Or.inr rfl) (Merge.right (Merge.left Merge.nil))
    (fun k2 h => nomatch h) (by decide)

/-- `swap_video_core` always fails — with `NameError` on `subprocess` once
the uploads are saved, with the save's own error otherwise — and never
reaches the output-composing ffmpeg call. -/
theorem swap_video_core_result (src tgt : String) (w : VideoWorld) :
    ((swap_video_core src tgt w).1 = .error (.nameError "subprocess")
      ∨ ∃ m, (swap_video_core src tgt w).1 = .error (.osError m))
    ∧ VideoEvent.composedOutput ∉ (swap_video_core src tgt w).2 := by
  rcases w with ⟨ss, st2, pe, co⟩
  cases ss with
  | error e =>
    refine ⟨Or.inr ⟨e, rfl⟩, ?_⟩
    show VideoEvent.composedOutput ∉ ([] : List VideoEvent)
    decide
  | ok u =>
    cases u
    cases st2 with
    | error e =>
      refine ⟨Or.inr ⟨e, rfl⟩, ?_⟩
      show VideoEvent.composedOutput ∉ [VideoEvent.savedSource]
      decide
    | ok u2 =>
      cases u2
      refine ⟨Or.inl rfl, ?_⟩
      show VideoEvent.composedOutput ∉ [VideoEvent.savedSource, VideoEvent.savedTarget]
      decide

/-- Claim C10: `routes.py` never imports `subprocess`, so every request to
`POST /swap-face/video` that reaches the frame-extraction step raises
`NameError` there; consequently every call to the endpoint fails — any
HTTPException it surfaces has status 500 — and the output video is never
composed. -/
theorem C10_subprocess_never_imported :
    routes_module_names.contains "subprocess" = false
    ∧ (∀ src tgt : String, ∀ w : VideoWorld,
        w.save_source = .ok () → w.save_target = .ok () →
        (swap_video_core src tgt w).1 = .error (.nameError "subprocess"))
    ∧ (∀ src tgt : String, ∀ w : VideoWorld, ∀ fs : FsOps,
        (swap_face_video src tgt w fs).1.isOk = false
        ∧ VideoEvent.composedOutput ∉ (swap_face_video src tgt w fs).2.1
        ∧ ∀ e : HTTPExc, (swap_face_video src tgt w fs).1 = .error (.http e) →
            e.status_code = 500) := by
  refine ⟨by decide, ?_, ?_⟩
  · intro src tgt w h1 h2
    rcases w with ⟨ss, st2, pe, co⟩
    simp only at h1 h2
    subst h1
    subst h2
    rfl
  · intro src tgt w fs
    obtain ⟨hres, hev⟩ := swap_video_core_result src tgt w
    have hp : ∃ perr, (swap_video_core src tgt w).1 = .error perr := by
      rcases hres with h | ⟨m, h⟩
      · exact ⟨_, h⟩
      · exact ⟨_, h⟩
    obtain ⟨perr, hp⟩ := hp
    simp only [swap_face_video, hp]
    split
    · exact ⟨rfl, hev, fun e he => by cases he⟩
    · split
      · exact ⟨rfl, hev, fun e he => by cases he⟩
      · refine ⟨rfl, hev, fun e he => ?_⟩
        cases he
        rfl

/-- Witness for C10 at a concrete request whose uploads both save. -/
theorem C10_witness :
    (swap_video_core "s.mp4" "t.mp4" cVideoWorld).1 = .error (.nameError "subprocess")
    ∧ (swap_face_video "s.mp4" "t.mp4" cVideoWorld cFsOps).1.isOk = false :=
  ⟨C10_subprocess_never_imported.2.1 "s.mp4" "t.mp4" cVideoWorld rfl rfl,
   (C10_subprocess_never_imported.2.2 "s.mp4" "t.mp4" cVideoWorld cFsOps).1⟩

/-- Counterexample to C7: the staged path of an upload is
`TEMP_DIR / filename` with the caller-supplied name used verbatim — a
filename with a traversal segment resolves outside the working directory
`temp`, and an absolute filename replaces the working directory entirely. -/
theorem C7_counterexample :
    upload_staged_path "../evil.png" = "temp/../evil.png"
    ∧ normalizePath (upload_staged_path "../evil.png") = "evil.png"
    ∧ isUnder "temp" (upload_staged_path "../evil.png") = false
    ∧ upload_staged_path "/etc/passwd" = "/etc/passwd" :=
  ⟨rfl, by decide, by decide, rfl⟩

/-- Claim C7, amended: the staged upload path is the caller-supplied
filename joined verbatim under the working directory — no sanitization and
no uniqueness token — so equal filenames map to equal paths and traversal
segments escape; this is precisely the path both upload handlers stage to. -/
theorem C7_staged_path_verbatim (f : String) (r : UploadReq) (w : UploadWorld) (g : StateMap)
    (h0 : f ≠ "") (h1 : strStartsWith f "/" = false) :
    upload_staged_path f = "temp/" ++ f
    ∧ (headless_core_upload r w g).target_path = some (pathJoin "temp" r.target_filename) := by
  constructor
  · unfold upload_staged_path pathJoin
    rw [if_neg h0, if_neg (by simp [h1])]
    rfl
  · unfold headless_core_upload
    cases r.source_filename <;> simp [headless_run_stage] <;> split <;> rfl

/-- Witness for C7 at the filename `cat.jpg`. -/
theorem C7_witness :
    upload_staged_path "cat.jpg" = "temp/" ++ "cat.jpg"
    ∧ (headless_core_upload ⟨["face_swapper"], "cat.jpg", none, none, none⟩ ⟨0, 5⟩ []).target_path
        = some (pathJoin "temp" "cat.jpg") :=
  C7_staged_path_verbatim "cat.jpg" ⟨["face_swapper"], "cat.jpg", none, none, none⟩ ⟨0, 5⟩ []
    (by decide) (by decide)

/-- Counterexample to C8: pydantic construction of `HeadlessUrlRequest`
accepts an empty processor list. -/
theorem C8_counterexample :
    (HeadlessUrlRequest_validate ⟨[], none, "http://example.com/t.jpg", none, none⟩).isOk = true := by
  rfl

/-- Claim C8, amended: request construction checks only that every listed
processor is a `ProcessorType` member and that the URLs parse as HTTP
URLs; there is no non-emptiness constraint on the processor list, so the
empty list is accepted. -/
theorem C8_validation_characterization (r : RawUrlRequest) :
    (HeadlessUrlRequest_validate r).isOk =
      (r.processors.all isProcessorType
        && (parse_url r.target_url).isSome
        && (match r.source_url with
            | none => true
            | some su => (parse_url su).isSome)) := by
  unfold HeadlessUrlRequest_validate
  by_cases h : r.processors.all isProcessorType = true
  · cases hpu : parse_url r.target_url with
    | none => simp [h, hpu, Except.isOk, Except.toBool]
    | some tu =>
      cases hs : r.source_url with
      | none => simp [h, hpu, hs, Except.isOk, Except.toBool]
      | some su =>
        cases hps : parse_url su <;> simp [h, hpu, hs, hps, Except.isOk, Except.toBool]
  · have hb : r.processors.all isProcessorType = false := by
      simpa using h
    simp [hb, Except.isOk, Except.toBool]

/-- Counterexample to C5: a target fetch answering HTTP 404 raises the
staging HTTPException with status 400 inside `download_file`, but
`headless_process_url`'s blanket `except Exception` re-reports it to the
caller as a server error 500. -/
theorem C5_counterexample :
    (headless_core_url cUrlReq cWorld404 []).result
      = .error ⟨400, "下载文件失败: http://example.com/imgs/cat.jpg"⟩
    ∧ (headless_process_url cUrlReq cWorld404 [] cFsOps).result
      = .error ⟨500, "处理失败: 下载文件失败: http://example.com/imgs/cat.jpg"⟩ :=
  ⟨rfl, rfl⟩

/-- Claim C5, amended: no failure is silently swallowed — the original
detail text survives into the response — and `swap_face_image` re-raises
HTTPExceptions with their kind intact (whenever its cleanup loop does not
itself raise); but the headless handlers re-report every failure,
staging 400s included, as status 500. -/
theorem C5_failure_kind :
    (∀ req w g fs e, (headless_core_url req w g).result = .error e →
        (headless_process_url req w g fs).result = .error ⟨500, "处理失败: " ++ e.detail⟩)
    ∧ (∀ src tgt wi fs,
        (unlink_loop fs [some (upload_staged_path src), some (upload_staged_path tgt),
          some (pathJoin "temp" ("output_" ++ tgt))] []).1 = .ok () →
        (swap_face_image src tgt wi fs).1 = (swap_image_core src tgt wi).mapError FinalErr.http) := by
  constructor
  · intro req w g fs e he
    simp only [headless_process_url, he]
  · intro src tgt wi fs hcl
    simp only [swap_face_image, hcl]
    cases hc : swap_image_core src tgt wi <;> simp [hc, Except.mapError]

/-- Witness for C5's amended statement at concrete inputs. -/
theorem C5_witness :
    (headless_process_url cUrlReq cWorld404 [] cFsOps).result
      = .error ⟨500, "处理失败: " ++
          (HTTPExc.mk 400 "下载文件失败: http://example.com/imgs/cat.jpg").detail⟩
    ∧ (swap_face_image "s.png" "t.png" cImageWorldOk cFsOps).1
      = (swap_image_core "s.png" "t.png" cImageWorldOk).mapError FinalErr.http :=
  ⟨C5_failure_kind.1 cUrlReq cWorld404 [] cFsOps
      ⟨400, "下载文件失败: http://example.com/imgs/cat.jpg"⟩ rfl,
   C5_failure_kind.2 "s.png" "t.png" cImageWorldOk cFsOps rfl⟩

/-- Counterexample to C3: the engine exits 0 but the declared output path
is absent from disk (`output_on_disk = false`); `headless_process_url`
nevertheless answers success — the exit code alone is trusted. -/
theorem C3_counterexample :
    (headless_process_url cUrlReq cWorldNoOutput [] cFsOps).result
      = .ok ⟨"处理成功", "output/cat_123.jpg", "cat_123.jpg"⟩
    ∧ cWorldNoOutput.output_on_disk = false :=
  ⟨rfl, rfl⟩

/-- Claim C3, amended: `swap_face_image` does treat a missing output file
as a server error even when the engine reported no failure, but the
headless handlers report success from exit code 0 alone, with no check
that the declared output path exists. -/
theorem C3_output_existence :
    (∀ src tgt : String, ∀ w : ImageWorld,
        w.source_readable = true → w.source_faces = true →
        w.target_readable = true → w.target_faces = true →
        w.process_error = none → w.output_exists = false →
        swap_image_core src tgt w = .error ⟨500, "换脸处理失败: 处理后的图片未生成"⟩)
    ∧ (∀ req : HeadlessUrlRequest, ∀ w : UrlWorld, ∀ g : StateMap, ∀ fs : FsOps,
        w.engineExit = 0 → w.target_status = 200 →
        (req.source_url = none ∨ w.source_status = 200) →
        (headless_process_url req w g fs).result.isOk = true) := by
  constructor
  · intro src tgt w h1 h2 h3 h4 h5 h6
    rcases w with ⟨a, b, c, d, e, f⟩
    simp only at h1 h2 h3 h4 h5 h6
    subst h1; subst h2; subst h3; subst h4; subst h5; subst h6
    rfl
  · intro req w g fs h0 ht hs
    have hdt : download_file req.target_url w.target_status
        = .ok (pathJoin "temp" (url_filename req.target_url.path)) := by
      unfold download_file
      rw [ht]
      simp
    cases hsu : req.source_url with
    | none =>
      simp only [headless_process_url, headless_core_url, hdt, hsu, headless_run_stage, h0]
      simp [Except.isOk, Except.toBool]
    | some su =>
      have hs2 : w.source_status = 200 := by
        rcases hs with hs | hs
        · rw [hsu] at hs; cases hs
        · exact hs
      have hds : download_file su w.source_status
          = .ok (pathJoin "temp" (url_filename su.path)) := by
        unfold download_file
        rw [hs2]
        simp
      simp only [headless_process_url, headless_core_url, hdt, hsu, hds, headless_run_stage, h0]
      simp [Except.isOk, Except.toBool]

/-- Witness for C3's amended statement at concrete inputs. -/
theorem C3_witness :
    swap_image_core "s.png" "t.png" cImageWorldNoOutput
      = .error ⟨500, "换脸处理失败: 处理后的图片未生成"⟩
    ∧ (headless_process_url cUrlReq cWorldNoOutput [] cFsOps).result.isOk = true :=
  ⟨C3_output_existence.1 "s.png" "t.png" cImageWorldNoOutput rfl rfl rfl rfl rfl rfl,
   C3_output_existence.2 cUrlReq cWorldNoOutput [] cFsOps rfl rfl (Or.inl rfl)⟩

/-- Every path the unlink loop deletes was in the accumulator already or
was one of the paths it was asked to delete. -/
theorem unlink_loop_deleted (fs : FsOps) :
    ∀ paths acc, ∀ p ∈ (unlink_loop fs paths acc).2, p ∈ acc ∨ some p ∈ paths := by
  intro paths
  induction paths with
  | nil =>
    intro acc p hp
    exact Or.inl hp
  | cons o rest ih =>
    intro acc p hp
    cases o with
    | none =>
      simp only [unlink_loop] at hp
      rcases ih acc p hp with h | h
      · exact Or.inl h
      · exact Or.inr (List.mem_cons_of_mem _ h)
    | some q =>
      by_cases hd : fs.path_on_disk q = true
      · simp only [unlink_loop, hd, if_true] at hp
        cases hu : fs.unlink q with
        | ok u =>
          cases u
          rw [hu] at hp
          rcases ih (acc ++ [q]) p hp with h | h
          · rcases List.mem_append.mp h with h2 | h2
            · exact Or.inl h2
            · have : p = q := by simpa using h2
              exact Or.inr (this ▸ List.mem_cons_self _ _)
          · exact Or.inr (List.mem_cons_of_mem _ h)
        | error e =>
          rw [hu] at hp
          exact Or.inl hp
      · have hd2 : fs.path_on_disk q = false := by
          simpa using hd
        simp only [unlink_loop, hd2, if_false, Bool.false_eq_true] at hp
        rcases ih acc p hp with h | h
        · exact Or.inl h
        · exact Or.inr (List.mem_cons_of_mem _ h)

/-- `cleanup_files` only ever deletes paths it was asked to delete. -/
theorem cleanup_files_deleted (paths : List (Option String)) (st : StateMap) (fs : FsOps) :
    ∀ p ∈ (cleanup_files paths st fs).deleted, some p ∈ paths := by
  intro p hp
  unfold cleanup_files at hp
  split at hp
  · simp at hp
  · split at hp
    · split at hp
      · rcases unlink_loop_deleted fs paths [] p hp with h | h
        · simp at h
        · exact h
      · split at hp
        · simp at hp
        · rcases unlink_loop_deleted fs paths [] p hp with h | h
          · simp at h
          · exact h
    · rcases unlink_loop_deleted fs paths [] p hp with h | h
      · simp at h
      · exact h

/-- Counterexample to C4: a `swap_face_image` job that reaches Completed
(the core returns the output file response), yet the `finally` block
deletes the output along with the staged inputs — no resource is exempted
from cleanup. -/
theorem C4_counterexample :
    (swap_image_core "s.png" "t.png" cImageWorldOk).isOk = true
    ∧ (swap_face_image "s.png" "t.png" cImageWorldOk cFsOps).2
        = ["temp/s.png", "temp/t.png", "temp/output_t.png"]
    ∧ "temp/output_t.png" ∈ (swap_face_image "s.png" "t.png" cImageWorldOk cFsOps).2 := by
  refine ⟨rfl, rfl, ?_⟩
  show "temp/output_t.png" ∈ ["temp/s.png", "temp/t.png", "temp/output_t.png"]
  decide

/-- Claim C4, amended: the headless handlers pass only the staged source
and target to `cleanup_files`, so the output artifact survives their
cleanup; but `swap_face_image` deletes the output together with the
inputs whenever it exists and deletion succeeds, Completed jobs
included. -/
theorem C4_output_exempt :
    (∀ req w g fs, ∀ p ∈ (headless_process_url req w g fs).deleted,
        some p = (headless_core_url req w g).source_path
        ∨ some p = (headless_core_url req w g).target_path)
    ∧ (∀ src tgt : String, ∀ wi : ImageWorld, ∀ fs : FsOps,
        (∀ q, fs.path_on_disk q = true) → (∀ q, fs.unlink q = .ok ()) →
        pathJoin "temp" ("output_" ++ tgt) ∈ (swap_face_image src tgt wi fs).2) := by
  constructor
  · intro req w g fs p hp
    have hd : (headless_process_url req w g fs).deleted
        = (cleanup_files [(headless_core_url req w g).source_path,
            (headless_core_url req w g).target_path]
            (headless_core_url req w g).stateAfter fs).deleted := by
      simp only [headless_process_url]
      cases (headless_core_url req w g).result <;> rfl
    rw [hd] at hp
    have := cleanup_files_deleted _ _ _ p hp
    simpa using this
  · intro src tgt wi fs hdisk hunlink
    have h2 : (swap_face_image src tgt wi fs).2
        = (unlink_loop fs [some (upload_staged_path src), some (upload_staged_path tgt),
            some (pathJoin "temp" ("output_" ++ tgt))] []).2 := by
      simp only [swap_face_image]
      split
      · rfl
      · split <;> rfl
    have hl : (unlink_loop fs [some (upload_staged_path src), some (upload_staged_path tgt),
        some (pathJoin "temp" ("output_" ++ tgt))] []).2
        = [upload_staged_path src, upload_staged_path tgt,
            pathJoin "temp" ("output_" ++ tgt)] := by
      simp [unlink_loop, hdisk, hunlink]
    rw [h2, hl]
    simp

/-- Witness for C4's amended statement at concrete inputs. -/
theorem C4_witness :
    (some "temp/cat.jpg" = (headless_core_url cUrlReq cWorldNoOutput []).source_path
      ∨ some "temp/cat.jpg" = (headless_core_url cUrlReq cWorldNoOutput []).target_path)
    ∧ pathJoin "temp" ("output_" ++ "t.png")
        ∈ (swap_face_image "s.png" "t.png" cImageWorldOk cFsOps).2 :=
  ⟨C4_output_exempt.1 cUrlReq cWorldNoOutput [] cFsOps "temp/cat.jpg"
      (by show "temp/cat.jpg" ∈ ["temp/cat.jpg"]; decide),
   C4_output_exempt.2 "s.png" "t.png" cImageWorldOk cFsOps (fun _ => rfl) (fun _ => rfl)⟩

/-- Counterexample to C9: `swap_face_image`'s unguarded `finally` loop — a
successful job (the core produces the output response), an unlink that
fails with a permission error, and the permission error replaces the
job's own outcome. -/
theorem C9_counterexample :
    (swap_image_core "s.png" "t.png" cImageWorldOk).isOk = true
    ∧ (swap_face_image "s.png" "t.png" cImageWorldOk cFsOpsDenied).1
        = .error (.cleanupRaise "Permission denied") :=
  ⟨rfl, rfl⟩

/-- Claim C9, amended: in the headless handlers any cleanup failure is
caught and logged inside `cleanup_files`, so the response never depends on
how cleanup behaved; `routes.py`'s endpoints run their deletions unguarded
in `finally`, where a failure escapes and masks the job's outcome. -/
theorem C9_cleanup_never_masks :
    (∀ req w g fs fs', (headless_process_url req w g fs).result
        = (headless_process_url req w g fs').result)
    ∧ (∀ r w g fs fs', (headless_process_upload r w g fs).result
        = (headless_process_upload r w g fs').result) := by
  constructor
  · intro req w g fs fs'
    simp only [headless_process_url]
    cases (headless_core_url req w g).result <;> rfl
  · intro r w g fs fs'
    simp only [headless_process_upload]
    cases (headless_core_upload r w g).result <;> rfl

/-- Claim C2: the range checks over the bounded tunables exist in
`validate_args` — which rejects `output_video_quality = 150` naming the
field — but neither handler ever invokes it (no `validateStep` appears in
any execution trace), and neither request model even carries those
tunables; staging and the engine run proceed with no validation at all. -/
theorem C2_validation_dead_code :
    validate_args { output_video_quality := some 150 }
      = .error ⟨400, "output_video_quality must be between 0 and 100"⟩
    ∧ (∀ req w g fs, Step.validateStep ∉ (headless_process_url req w g fs).steps)
    ∧ (∀ r w g fs, Step.validateStep ∉ (headless_process_upload r w g fs).steps) := by
  refine ⟨rfl, ?_, ?_⟩
  · intro req w g fs
    have h : (headless_process_url req w g fs).steps = (headless_core_url req w g).steps := by
      simp only [headless_process_url]
      cases (headless_core_url req w g).result <;> rfl
    rw [h]
    unfold headless_core_url headless_run_stage
    split
    · simp
    · split
      · split
        · simp
        · split <;> simp
      · split <;> simp
  · intro r w g fs
    have h : (headless_process_upload r w g fs).steps = (headless_core_upload r w g).steps := by
      simp only [headless_process_upload]
      cases (headless_core_upload r w g).result <;> rfl
    rw [h]
    unfold headless_core_upload headless_run_stage
    split <;> split <;> simp

theorem lastWrite_optWrite_ne {α : Type} (o : Option α) (k k' : String) (f : α → Value)
    (h : k ≠ k') : lastWrite k (optWrite o k' f) = none := by
  cases o with
  | none => rfl
  | some x => simp [optWrite, lastWrite, Ne.symm h]

theorem lastWrite_optWrite_some {α : Type} (x : α) (k : String) (f : α → Value) :
    lastWrite k (optWrite (some x) k f) = some (f x) := by
  simp [optWrite, lastWrite]

theorem lastWrite_paths3 (k : String) (v1 v2 v3 : Value)
    (h1 : k ≠ "source_paths") (h2 : k ≠ "target_path") (h3 : k ≠ "output_path") :
    lastWrite k [("source_paths", v1), ("target_path", v2), ("output_path", v3)] = none := by
  simp [lastWrite, Ne.symm h1, Ne.symm h2, Ne.symm h3]

/-- A key written by none of `setup_process_state`'s writes keeps its
`lastWrite` empty, whatever the request supplied. -/
theorem lastWrite_setup_writes_none (args : Args) (k : String)
    (hd : lastWrite k default_writes = none)
    (h1 : k ≠ "processors") (h2 : k ≠ "source_paths") (h3 : k ≠ "target_path")
    (h4 : k ≠ "output_path") (h5 : k ≠ "face_enhancer_model") (h6 : k ≠ "face_enhancer_blend")
    (h7 : k ≠ "output_video_quality") (h8 : k ≠ "output_video_fps") (h9 : k ≠ "skip_audio") :
    lastWrite k (setup_writes args) = none := by
  have p1 := lastWrite_optWrite_ne args.processors k "processors" Value.strList h1
  have p2 := fun v1 v2 v3 => lastWrite_paths3 k v1 v2 v3 h2 h3 h4
  have p3 := lastWrite_optWrite_ne args.face_enhancer_model k "face_enhancer_model" Value.str h5
  have p4 := lastWrite_optWrite_ne args.face_enhancer_blend k "face_enhancer_blend" Value.int h6
  have p5 := lastWrite_optWrite_ne args.output_video_quality k "output_video_quality" Value.int h7
  have p6 := lastWrite_optWrite_ne args.output_video_fps k "output_video_fps"
    (fun f => Value.rat f 1) h8
  have p7 := lastWrite_optWrite_ne args.skip_audio k "skip_audio" Value.bool h9
  simp only [setup_writes, lastWrite_append, p1, p2, p3, p4, p5, p6, p7, hd]

/-- Counterexample to C6: a leftover `trim_frame_start` from a previous job
survives a full `setup_process_state` for a request that did not supply a
trim — the field is not re-asserted to any default. -/
theorem C6_counterexample :
    cArgsA.trim_frame_start = none
    ∧ get_entry (setup_process_state cArgsA (set_entry [] "trim_frame_start" (Value.int 99)))
        "trim_frame_start" = some (Value.int 99) :=
  ⟨rfl, rfl⟩

/-- Claim C6, amended: `setup_process_state` applies the default table
first and the request's overrides second (request-supplied keys win,
unsupplied tunables fall back to the default), and every key it writes is
rebuilt independently of the previous job's state; but `trim_frame_start`
and `trim_frame_end` are never written — neither by the defaults nor by
the overrides — so a leftover value from a previous job persists. -/
theorem C6_full_rebuild :
    (∀ args : Args, lastWrite "trim_frame_start" (setup_writes args) = none
      ∧ lastWrite "trim_frame_end" (setup_writes args) = none)
    ∧ (∀ args : Args, ∀ s : StateMap,
        get_entry (setup_process_state args s) "trim_frame_start"
          = get_entry s "trim_frame_start"
        ∧ get_entry (setup_process_state args s) "trim_frame_end"
          = get_entry s "trim_frame_end")
    ∧ (∀ args : Args, ∀ s s' : StateMap, ∀ k : String,
        k ∈ (setup_writes args).map Prod.fst →
        get_entry (setup_process_state args s) k = get_entry (setup_process_state args s') k)
    ∧ (∀ args : Args, ∀ s : StateMap, ∀ q : Int, args.output_video_quality = some q →
        get_entry (setup_process_state args s) "output_video_quality" = some (Value.int q))
    ∧ (∀ args : Args, ∀ s : StateMap, args.output_video_quality = none →
        get_entry (setup_process_state args s) "output_video_quality" = some (Value.int 80)) := by
  have htrim : ∀ args : Args, lastWrite "trim_frame_start" (setup_writes args) = none
      ∧ lastWrite "trim_frame_end" (setup_writes args) = none := by
    intro args
    constructor
    · exact lastWrite_setup_writes_none args "trim_frame_start" (by decide) (by decide)
        (by decide) (by decide) (by decide) (by decide) (by decide) (by decide) (by decide)
        (by decide)
    · exact lastWrite_setup_writes_none args "trim_frame_end" (by decide) (by decide)
        (by decide) (by decide) (by decide) (by decide) (by decide) (by decide) (by decide)
        (by decide)
  refine ⟨htrim, ?_, ?_, ?_, ?_⟩
  · intro args s
    constructor
    · unfold setup_process_state
      rw [get_apply_entries, (htrim args).1]
    · unfold setup_process_state
      rw [get_apply_entries, (htrim args).2]
  · intro args s s' k hk
    obtain ⟨v, hv⟩ := lastWrite_isSome_of_mem k _ hk
    unfold setup_process_state
    rw [get_apply_entries, get_apply_entries, hv]
  · intro args s q hq
    unfold setup_process_state
    rw [get_apply_entries]
    have hlw : lastWrite "output_video_quality" (setup_writes args) = some (Value.int q) := by
      have p6 := lastWrite_optWrite_ne args.output_video_fps "output_video_quality"
        "output_video_fps" (fun f => Value.rat f 1) (by decide)
      have p7 := lastWrite_optWrite_ne args.skip_audio "output_video_quality"
        "skip_audio" Value.bool (by decide)
      have pq : lastWrite "output_video_quality"
          (optWrite args.output_video_quality "output_video_quality" Value.int)
          = some (Value.int q) := by
        rw [hq]
        exact lastWrite_optWrite_some q "output_video_quality" Value.int
      simp only [setup_writes, lastWrite_append, p6, p7, pq]
    rw [hlw]
  · intro args s hq
    unfold setup_process_state
    rw [get_apply_entries]
    have hlw : lastWrite "output_video_quality" (setup_writes args) = some (Value.int 80) := by
      have p1 := lastWrite_optWrite_ne args.processors "output_video_quality"
        "processors" Value.strList (by decide)
      have p2 := fun v1 v2 v3 => lastWrite_paths3 "output_video_quality" v1 v2 v3
        (by decide) (by decide) (by decide)
      have p3 := lastWrite_optWrite_ne args.face_enhancer_model "output_video_quality"
        "face_enhancer_model" Value.str (by decide)
      have p4 := lastWrite_optWrite_ne args.face_enhancer_blend "output_video_quality"
        "face_enhancer_blend" Value.int (by decide)
      have p6 := lastWrite_optWrite_ne args.output_video_fps "output_video_quality"
        "output_video_fps" (fun f => Value.rat f 1) (by decide)
      have p7 := lastWrite_optWrite_ne args.skip_audio "output_video_quality"
        "skip_audio" Value.bool (by decide)
      have pq : lastWrite "output_video_quality"
          (optWrite args.output_video_quality "output_video_quality" Value.int) = none := by
        rw [hq]
        rfl
      have hd : lastWrite "output_video_quality" default_writes = some (Value.int 80) := by
        decide
      simp only [setup_writes, lastWrite_append, p1, p2, p3, p4, p6, p7, pq, hd]
    rw [hlw]

/-- Witness for C6's amended statement at concrete jobs and states. -/
theorem C6_witness :
    (lastWrite "trim_frame_start" (setup_writes cArgsA) = none
      ∧ lastWrite "trim_frame_end" (setup_writes cArgsA) = none)
    ∧ (get_entry (setup_process_state cArgsA (set_entry [] "trim_frame_start" (Value.int 99)))
        "trim_frame_start"
        = get_entry (set_entry [] "trim_frame_start" (Value.int 99)) "trim_frame_start")
    ∧ (get_entry (setup_process_state cArgsQ []) "output_video_quality"
        = get_entry (setup_process_state cArgsQ [("leftover", Value.int 1)]) "output_video_quality")
    ∧ get_entry (setup_process_state cArgsQ []) "output_video_quality" = some (Value.int 55)
    ∧ get_entry (setup_process_state cArgsA []) "output_video_quality" = some (Value.int 80) :=
  ⟨C6_full_rebuild.1 cArgsA,
   (C6_full_rebuild.2.1 cArgsA (set_entry [] "trim_frame_start" (Value.int 99))).1,
   C6_full_rebuild.2.2.1 cArgsQ [] [("leftover", Value.int 1)] "output_video_quality" (by decide),
   C6_full_rebuild.2.2.2.1 cArgsQ [] 55 rfl,
   C6_full_rebuild.2.2.2.2 cArgsA [] rfl⟩

end FaceFusion
